import Mathlib

/-!
Verification development for the DABubble client-side navigation and
message-synchronization layer.

The development shallowly embeds, from the TypeScript sources:
- the message change-feed reconciler of `MessagesListViewComponent`
  (`subscribeMessages`, the `messagesPath` input setter);
- the `NavigationService` (chat/thread view resolution, the
  navigation-complete identity check, search-context derivation).

JavaScript machine details kept by the embedding:
- `Array.prototype.sort` is a stable sort ordered by the comparator
  (ES2019), embedded as `List.mergeSort`;
- string truthiness: the empty string is falsy, so `if (s)` guards are
  embedded as explicit `≠ ""` tests;
- optional chaining `x?.f` on an absent `x` yields `undefined`, so
  comparisons against it are embedded by matching on the `Option`.

Object identity (`===`) is approximated by structural equality of the
embedded records; each `new Message(...)`/`new Chat(...)` in the source
creates a fresh instance, so structurally distinct records model
distinct instances.
-/

namespace DABubble

open List

/-- A user record, as used by `NavigationService` and `UsersService`
(`user.class.ts` is outside the excerpt; fields are those the excerpt
reads: `id` and `name`). -/
structure User where
  id : String
  name : String
deriving DecidableEq, Repr

/-- A direct chat record (`chat.class.ts` is outside the excerpt; fields
are those the excerpt reads: `id`, `memberIDs`, `chatMessagesPath`). -/
structure Chat where
  id : String
  memberIDs : List String
  chatMessagesPath : String
deriving DecidableEq, Repr

/-- A channel record (`channel.class.ts` is outside the excerpt; fields
are those the excerpt reads: `name`, `channelMessagesPath`,
`memberIDs`). -/
structure Channel where
  id : String
  name : String
  channelMessagesPath : String
  memberIDs : List String
deriving DecidableEq, Repr

/-- The payload of a Firestore message document (`change.doc.data()`),
opaque to the reconciler apart from `createdAt`; timestamps are embedded
as `Nat` (the value of `Date.getTime()`). -/
structure MessageData where
  creatorID : String
  createdAt : Nat
  answerable : Bool
  answerPath : String
  content : String
deriving DecidableEq, Repr

/-- A message held by the client (`message.class.ts` is outside the
excerpt; fields are those the excerpt reads, plus the collection path the
constructor receives). -/
structure Message where
  id : String
  creatorID : String
  createdAt : Nat
  answerable : Bool
  answerPath : String
  content : String
  collectionPath : String
deriving DecidableEq, Repr

/-- Construction of a message on an `added` delta:
`new Message(change.doc.data(), messagesPath, change.doc.id)`. -/
def Message.ofDoc (d : MessageData) (messagesPath : String) (docId : String) : Message :=
  { id := docId
    creatorID := d.creatorID
    createdAt := d.createdAt
    answerable := d.answerable
    answerPath := d.answerPath
    content := d.content
    collectionPath := messagesPath }

/-- Modelled from the spec: `Message.update` of `message.class.ts` is not
in the excerpt. Per §3 of the spec a `modified` delta updates payload
fields in place with identity and id unchanged, and per §4.3 `modified`
deltas alone cannot change chronological ordering, so `update` replaces
the payload fields and preserves `id`, `createdAt` and the collection
path. -/
def Message.update (m : Message) (d : MessageData) : Message :=
  { m with
    creatorID := d.creatorID
    answerable := d.answerable
    answerPath := d.answerPath
    content := d.content }

/-- The sort comparator of the reconciler,
`(a, b) => a.createdAt.getTime() - b.createdAt.getTime()`, as the
boolean "a sorts no later than b" relation. -/
def msgLE (a b : Message) : Bool :=
  a.createdAt ≤ b.createdAt

/-- One entry of a Firestore snapshot's `docChanges()`. -/
inductive DocChange where
  | added (docId : String) (data : MessageData)
  | modified (docId : String) (data : MessageData)
  | removed (docId : String)
deriving DecidableEq, Repr

/-- The in-place update performed by the `modified` branch:
`this.messages.find((message) => message.id === change.doc.id)` followed
by `message.update(...)` mutates the first list entry with the matching
id and leaves everything else in place; when no entry matches, nothing
happens. -/
def updateFirst : List Message → String → MessageData → List Message
  | [], _, _ => []
  | m :: rest, docId, d =>
    if m.id = docId then m.update d :: rest
    else m :: updateFirst rest docId d

/-- One iteration of the `snapshot.docChanges().forEach` loop of
`subscribeMessages`: the accumulator is the held `messages` list paired
with the `sortNeeded` flag. -/
def applyDocChange (messagesPath : String) (acc : List Message × Bool) (c : DocChange) :
    List Message × Bool :=
  match c with
  | .added docId d => (acc.1 ++ [Message.ofDoc d messagesPath docId], true)
  | .modified docId d => (updateFirst acc.1 docId d, acc.2)
  | .removed docId => (acc.1.filter (fun m => m.id ≠ docId), acc.2)

/-- Processing of one snapshot (one delta batch) by the `onSnapshot`
callback of `subscribeMessages`: fold the doc changes over the held list
with `sortNeeded := false`, then stably sort by `createdAt` when any
`added` delta occurred. -/
def processSnapshot (messagesPath : String) (messages : List Message)
    (changes : List DocChange) : List Message :=
  let folded := changes.foldl (applyDocChange messagesPath) (messages, false)
  if folded.2 then folded.1.mergeSort msgLE else folded.1

/-- The externally visible message list after a sequence of snapshots,
starting from the empty list a fresh subscription begins with. -/
def processAllSnapshots (messagesPath : String) (batches : List (List DocChange)) :
    List Message :=
  batches.foldl (processSnapshot messagesPath) []

/-- The messages constructed by the `added` deltas of one batch, in
delivery (arrival) order. -/
def addedOf (messagesPath : String) (changes : List DocChange) : List Message :=
  changes.filterMap (fun c =>
    match c with
    | .added docId d => some (Message.ofDoc d messagesPath docId)
    | _ => none)

/-- All messages constructed by `added` deltas across a sequence of
batches, in arrival order. -/
def addedMessages (messagesPath : String) (batches : List (List DocChange)) :
    List Message :=
  batches.foldl (fun acc b => acc ++ addedOf messagesPath b) []

/-- Whether a doc change is an `added` delta. -/
def DocChange.isAdded : DocChange → Bool
  | .added _ _ => true
  | _ => false

/-- A batch sequence consisting of `added` deltas only. -/
def AddOnly (batches : List (List DocChange)) : Prop :=
  ∀ b ∈ batches, ∀ c ∈ b, c.isAdded = true

instance : DecidablePred AddOnly := fun batches =>
  inferInstanceAs (Decidable (∀ b ∈ batches, ∀ c ∈ b, c.isAdded = true))

/-! ### Component state of `MessagesListViewComponent`

The `messagesPath` input setter and `subscribeMessages` manage the held
list and the single live `onSnapshot` subscription. A subscription handle
is modelled as the subscribed path tagged with a serial number, so that a
replaced handle is distinguishable from a fresh one on the same path. -/

/-- The fields of `MessagesListViewComponent` touched by the
`messagesPath` setter. `unsubMessages` holds the active snapshot
subscription (`null` when none); `subSerial` is a specification-level
counter tagging each subscription instance so that handle identity (the
stored unsubscribe closure) is expressible. `messagesDates` entries are
embedded as timestamps. -/
structure MessagesListViewState where
  messages : List Message
  messagesDates : List Nat
  unsubMessages : Option (Nat × String)
  subSerial : Nat
  messageEditorOpen : Bool
deriving DecidableEq, Repr

/-- Truthiness of a JS `string | undefined`: `undefined` and the empty
string are falsy. -/
def truthyStr : Option String → Bool
  | some s => s ≠ ""
  | none => false

/-- Embedding of `subscribeMessages(messagesPath)`: first
`if (this.unsubMessages) this.unsubMessages()` cancels any prior
subscription, then `if (messagesPath)` a new `onSnapshot` subscription is
created on the (truthy) path. -/
def subscribeMessages (st : MessagesListViewState) (messagesPath : Option String) :
    MessagesListViewState :=
  let st := { st with unsubMessages := none }
  match messagesPath with
  | some p =>
    if p = "" then st
    else { st with unsubMessages := some (st.subSerial, p), subSerial := st.subSerial + 1 }
  | none => st

/-- Embedding of the `messagesPath` input setter: reset `messages` and
`messagesDates`, re-subscribe via `subscribeMessages`, close the message
editor. -/
def setMessagesPathInput (st : MessagesListViewState) (value : Option String) :
    MessagesListViewState :=
  let st := { st with messages := ([] : List Message), messagesDates := ([] : List Nat) }
  let st := subscribeMessages st value
  { st with messageEditorOpen := false }

/-- Delivery of one snapshot to the component: the `onSnapshot` callback
rewrites `messages` via the batch-processing algorithm. -/
def deliverSnapshot (st : MessagesListViewState) (messagesPath : String)
    (changes : List DocChange) : MessagesListViewState :=
  { st with messages := processSnapshot messagesPath st.messages changes }

/-- Well-formedness of the subscription bookkeeping: the serial number of
a held subscription handle was assigned before the current counter value.
It holds for the initial state (no handle) and is maintained by
`subscribeMessages`, which assigns the current counter and increments
it. -/
def SubHandleWF (st : MessagesListViewState) : Prop :=
  ∀ k p, st.unsubMessages = some (k, p) → k < st.subSerial

/-! ### `NavigationService` -/

/-- The tagged change reasons emitted on `changeSubject`. -/
inductive ChangeNavigation where
  | unknow
  | chatViewObjectSetAsChannel
  | chatViewObjectSetAsChat
  | threadViewObjectSet
  | threadViewObjectCleared
deriving DecidableEq, Repr

/-- The value stored in `_chatViewObject`: a `Channel` or a `Chat`. -/
inductive ViewObject where
  | channel (c : Channel)
  | chat (c : Chat)
deriving DecidableEq, Repr

/-- The argument of `setChatViewObject`: a `Channel` or a `User`. -/
inductive NavTarget where
  | channel (c : Channel)
  | user (u : User)
deriving DecidableEq, Repr

/-- The view/thread state owned by `NavigationService`. -/
structure NavState where
  chatViewObject : Option ViewObject
  chatViewPath : Option String
  threadViewObject : Option Message
  threadViewPath : Option String
deriving DecidableEq, Repr

/-- Embedding of `setChatViewObjectAsChannel`: store the channel, store
its messages path with the empty string normalized to `undefined`, emit
`chatViewObjectSetAsChannel`. Returned alongside the new state is the
list of change events emitted by the call. -/
def setChatViewObjectAsChannel (s : NavState) (channel : Channel) :
    NavState × List ChangeNavigation :=
  ({ s with
      chatViewObject := some (.channel channel)
      chatViewPath :=
        if channel.channelMessagesPath = "" then none
        else some channel.channelMessagesPath },
   [.chatViewObjectSetAsChannel])

/-- The error taxonomy of the spec for chat-view resolution. -/
inductive NavError where
  | chatCreationFailed
deriving DecidableEq, Repr

/-- The observable outcome of one `setChatViewObjectAsChat(user)` call:
the updated state, the change events emitted, the number of
`addChatWithUserOnFirestore` calls issued, the chat id a chat-list-change
subscription was installed for (if any), and the error surfaced to the
caller (if any). -/
structure ChatResolutionOutcome where
  state : NavState
  events : List ChangeNavigation
  createCalls : Nat
  watchedChatID : Option String
  surfacedError : Option NavError
deriving DecidableEq, Repr

/-- Embedding of `setChatViewObjectAsChat(user)`. The collaborator
results are passed explicitly: `findResult` is what
`getChatWithUserByID(user.id)` resolved to, and `createResult` what
`addChatWithUserOnFirestore(user.id)` resolved to (`none` = creation
failed, modelled after the `if (chatID)` guard). When a chat is found it
is stored with its path taken verbatim; otherwise one creation call is
issued, and on a truthy chat id a chat-list-change subscription is
installed. The method body contains no `throw` and its returned promise
is not even awaited by `setChatViewObject`, so no branch surfaces an
error: `surfacedError` is `none` on every path. In every branch
`chatViewObjectSetAsChat` is emitted at the end. -/
def setChatViewObjectAsChat (s : NavState) (findResult : Option Chat)
    (createResult : Option String) : ChatResolutionOutcome :=
  match findResult with
  | some chat =>
    { state :=
        { s with
          chatViewObject := some (.chat chat)
          chatViewPath := some chat.chatMessagesPath }
      events := [.chatViewObjectSetAsChat]
      createCalls := 0
      watchedChatID := none
      surfacedError := none }
  | none =>
    match createResult with
    | some chatID =>
      { state := s
        events := [.chatViewObjectSetAsChat]
        createCalls := 1
        watchedChatID := some chatID
        surfacedError := none }
    | none =>
      { state := s
        events := [.chatViewObjectSetAsChat]
        createCalls := 1
        watchedChatID := none
        surfacedError := none }

/-- The world of a pending chat-list-change subscription installed by
`setChatViewObjectAsChat`: the navigation state it writes into, whether
the subscription is still active, the chat id it watches, and the number
of `setTimeout(() => chatListChangeSubscription.unsubscribe(), 100)`
timers scheduled but not yet fired. -/
structure ChatWatchWorld where
  state : NavState
  subActive : Bool
  chatID : String
  pendingUnsubTimers : Nat
deriving DecidableEq, Repr

/-- Embedding of the subscription callback on one `chatListChange$`
notification: while the subscription is active, scan the collaborator's
current chat list (`this.channelService.chats`, passed as `chats`) for a
chat with the watched id; if found, store it as the view object with its
path and schedule a delayed unsubscribe. After an unsubscribe the
callback no longer runs. -/
def onChatListChange (w : ChatWatchWorld) (chats : List Chat) : ChatWatchWorld :=
  if w.subActive then
    match chats.find? (fun chat => chat.id == w.chatID) with
    | some chat =>
      { w with
        state :=
          { w.state with
            chatViewObject := some (.chat chat)
            chatViewPath := some chat.chatMessagesPath }
        pendingUnsubTimers := w.pendingUnsubTimers + 1 }
    | none => w
  else w

/-- Firing of one scheduled delayed-unsubscribe timer: 100ms after it was
scheduled, `chatListChangeSubscription.unsubscribe()` runs and the
subscription becomes inactive. -/
def fireUnsubTimer (w : ChatWatchWorld) : ChatWatchWorld :=
  if w.pendingUnsubTimers > 0 then
    { w with subActive := false, pendingUnsubTimers := w.pendingUnsubTimers - 1 }
  else w

/-- External happenings the pending-subscription world reacts to, in
event-loop order: a `chatListChange$` notification (carrying the
collaborator's chat list at that instant) or the firing of a scheduled
delayed unsubscribe. -/
inductive WatchEvent where
  | notify (chats : List Chat)
  | timerFires
deriving DecidableEq, Repr

/-- Sequential processing of watch events on the single event loop. -/
def runWatch (w : ChatWatchWorld) : List WatchEvent → ChatWatchWorld
  | [] => w
  | .notify chats :: rest => runWatch (onChatListChange w chats) rest
  | .timerFires :: rest => runWatch (fireUnsubTimer w) rest

/-- Embedding of the guard on `navigationComplete.emit()` in
`setChatViewObject` (evaluated 100ms after the call started, against the
then-current `_chatViewObject`):
`this._chatViewObject === object || (this._chatViewObject instanceof Chat
&& object instanceof User)`. A stored `Chat` is never `===` to a
`Channel` or `User` argument, and a stored `Channel` can only be `===` to
the selected `Channel` itself. -/
def navigationCompleteCheck (chatViewObject : Option ViewObject) (object : NavTarget) :
    Bool :=
  match chatViewObject, object with
  | some (.channel c), .channel c2 => c == c2
  | some (.chat _), .user _ => true
  | _, _ => false

/-- Embedding of `setThreadViewObject(message)`: only when
`message.answerable` is true are the answer path and the message stored
and `threadViewObjectSet` emitted; otherwise nothing happens. -/
def setThreadViewObject (s : NavState) (message : Message) :
    NavState × List ChangeNavigation :=
  if message.answerable then
    ({ s with
        threadViewPath := some message.answerPath
        threadViewObject := some message },
     [.threadViewObjectSet])
  else (s, [])

/-- Embedding of `clearThreadViewObject`. -/
def clearThreadViewObject (s : NavState) : NavState × List ChangeNavigation :=
  ({ s with threadViewPath := none, threadViewObject := none },
   [.threadViewObjectCleared])

/-! ### Search context -/

/-- The collaborator contract of `UsersService` as read by
`NavigationService`: the current user (possibly absent) and the directory
lookup `getUserByID`. -/
structure UsersServiceModel where
  currentUser : Option User
  getUserByID : String → Option User

/-- The string interpolation `s!"...${x?.name}"` of a possibly absent
user: JS renders `undefined` as the literal text `undefined`. -/
def interpName : Option User → String
  | some u => u.name
  | none => "undefined"

/-- The member predicate of `getChatPartnerName`,
`(id) => id !== this.userService.currentUser?.id`: when no current user
exists, `currentUser?.id` is `undefined` and every string id differs
from it. -/
def partnerFilter (currentUser : Option User) (memberId : String) : Bool :=
  match currentUser with
  | some u => memberId ≠ u.id
  | none => true

/-- Embedding of `getChatPartnerName` for a given view object: the first
member passing `partnerFilter`, then
`chatPartnerID ? this.userService.getUserByID(chatPartnerID)?.name :
undefined` — an empty-string partner id is falsy and yields
`undefined`. -/
def getChatPartnerName (svc : UsersServiceModel) (view : ViewObject) : Option String :=
  match view with
  | .chat c =>
    let partnerID := c.memberIDs.find? (partnerFilter svc.currentUser)
    match partnerID with
    | some pid => if pid = "" then none else (svc.getUserByID pid).map (fun u => u.name)
    | none => none
  | .channel _ => none

/-- Embedding of `isSelfChat`: true exactly when the view object is a
`Chat`, a current user exists, and every member id equals the current
user's id. -/
def isSelfChat (svc : UsersServiceModel) (view : ViewObject) : Bool :=
  match view, svc.currentUser with
  | .chat c, some u => c.memberIDs.all (fun memberId => memberId == u.id)
  | _, _ => false

/-- Embedding of `getSearchContext` over the resolved view object (the
`chatViewObject` getter never yields `undefined`; it falls back to the
default channel, so the argument is always a `Chat` or a `Channel`):
for a chat, a truthy partner name yields `in:@name`, else a self-chat
yields `in:@` plus the current user's name, else the empty string; for a
channel, `in:#` plus the channel name. -/
def getSearchContext (svc : UsersServiceModel) (view : ViewObject) : String :=
  match view with
  | .chat _ =>
    let chatPartner := getChatPartnerName svc view
    if truthyStr chatPartner then "in:@" ++ chatPartner.getD ""
    else if isSelfChat svc view then "in:@" ++ interpName svc.currentUser
    else ""
  | .channel c => "in:#" ++ c.name

/-! ## Theorems -/

/-- C7: a `setThread(message)` call with `message.answerable` false is a
silent no-op — the state (hence `currentThread` and `currentThreadPath`)
is unchanged and no event is emitted; with `message.answerable` true the
message and its `answerPath` are stored and `threadViewObjectSet`
(the spec's `threadSet`) is emitted. -/
theorem c7_thread_answerable_guard (s : NavState) (m : Message) :
    (m.answerable = false → setThreadViewObject s m = (s, [])) ∧
    (m.answerable = true →
      (setThreadViewObject s m).1.threadViewObject = some m ∧
      (setThreadViewObject s m).1.threadViewPath = some m.answerPath ∧
      (setThreadViewObject s m).2 = [ChangeNavigation.threadViewObjectSet]) := by
  constructor <;> intro h <;> simp [setThreadViewObject, h]

/-- Witness for C7 at a concrete non-answerable message and a concrete
answerable message. -/
theorem c7_thread_answerable_guard_witness :
    setThreadViewObject ⟨none, none, none, none⟩ ⟨"m1", "u1", 5, false, "", "hi", "p"⟩ =
      (⟨none, none, none, none⟩, []) ∧
    (setThreadViewObject ⟨none, none, none, none⟩
        ⟨"m2", "u1", 6, true, "p/m2/answers", "ho", "p"⟩).1.threadViewObject =
      some ⟨"m2", "u1", 6, true, "p/m2/answers", "ho", "p"⟩ :=
  ⟨(c7_thread_answerable_guard ⟨none, none, none, none⟩
      ⟨"m1", "u1", 5, false, "", "hi", "p"⟩).1 rfl,
   ((c7_thread_answerable_guard ⟨none, none, none, none⟩
      ⟨"m2", "u1", 6, true, "p/m2/answers", "ho", "p"⟩).2 rfl).1⟩

/-- C6 fails as stated: when chat creation fails, `setChatViewObjectAsChat`
surfaces no error at all — at the concrete input below (no existing chat,
creation failed) the outcome carries no `ChatCreationFailed`, the state is
unchanged, and the `chatViewObjectSetAsChat` change event still fires, so
nothing is "surfaced to the caller of selectView". -/
theorem c6_creation_failure_counterexample :
    (setChatViewObjectAsChat
        ⟨some (.channel ⟨"ch1", "general", "gp", ["u1"]⟩), some "gp", none, none⟩
        none none).surfacedError ≠ some NavError.chatCreationFailed ∧
    (setChatViewObjectAsChat
        ⟨some (.channel ⟨"ch1", "general", "gp", ["u1"]⟩), some "gp", none, none⟩
        none none).state =
      ⟨some (.channel ⟨"ch1", "general", "gp", ["u1"]⟩), some "gp", none, none⟩ :=
  ⟨by simp [setChatViewObjectAsChat], rfl⟩

/-- C6 amended: when no existing chat is found and the creation request
fails, the failure is silently swallowed — no error is surfaced to the
caller, exactly one creation call is issued (no retry), the current view
and path are unchanged, no watch subscription is installed, and the
`chatViewObjectSetAsChat` change event is still emitted. -/
theorem c6_creation_failure_silent (s : NavState) :
    (setChatViewObjectAsChat s none none).surfacedError = none ∧
    (setChatViewObjectAsChat s none none).state = s ∧
    (setChatViewObjectAsChat s none none).createCalls = 1 ∧
    (setChatViewObjectAsChat s none none).watchedChatID = none ∧
    (setChatViewObjectAsChat s none none).events = [ChangeNavigation.chatViewObjectSetAsChat] :=
  ⟨rfl, rfl, rfl, rfl, rfl⟩

/-- C8 fails in its general normalization part: a found direct chat whose
`chatMessagesPath` is the empty string is stored with path `some ""`, not
`undefined` — the empty-string normalization is applied to channels
only. -/
theorem c8_path_normalization_counterexample :
    (setChatViewObjectAsChat ⟨none, none, none, none⟩
        (some ⟨"c1", ["u1", "u2"], ""⟩) none).state.chatViewPath = some "" ∧
    some "" ≠ (none : Option String) :=
  ⟨rfl, by simp⟩

/-- C8 amended: selecting a Channel makes it the current view object and
sets the current path to its `channelMessagesPath` with the empty string
normalized to `undefined`; for a resolved direct chat, however, the path
is stored verbatim (no empty-string normalization). -/
theorem c8_resolved_view_paths (s : NavState) (c : Channel) (chat : Chat) :
    (setChatViewObjectAsChannel s c).1.chatViewObject = some (.channel c) ∧
    (c.channelMessagesPath = "" → (setChatViewObjectAsChannel s c).1.chatViewPath = none) ∧
    (c.channelMessagesPath ≠ "" →
      (setChatViewObjectAsChannel s c).1.chatViewPath = some c.channelMessagesPath) ∧
    (setChatViewObjectAsChat s (some chat) none).state.chatViewPath =
      some chat.chatMessagesPath := by
  refine ⟨rfl, ?_, ?_, rfl⟩ <;> intro h <;> simp [setChatViewObjectAsChannel, h]

/-- Witness for C8 (amended) at a concrete channel with an empty messages
path and a concrete channel with a non-empty one. -/
theorem c8_resolved_view_paths_witness :
    (setChatViewObjectAsChannel ⟨none, none, none, none⟩
        ⟨"ch1", "general", "", ["u1"]⟩).1.chatViewPath = none ∧
    (setChatViewObjectAsChannel ⟨none, none, none, none⟩
        ⟨"ch2", "random", "channels/ch2/messages", ["u1"]⟩).1.chatViewPath =
      some "channels/ch2/messages" :=
  ⟨(c8_resolved_view_paths ⟨none, none, none, none⟩ ⟨"ch1", "general", "", ["u1"]⟩
      ⟨"c1", [], ""⟩).2.1 rfl,
   (c8_resolved_view_paths ⟨none, none, none, none⟩
      ⟨"ch2", "random", "channels/ch2/messages", ["u1"]⟩ ⟨"c1", [], ""⟩).2.2.1 (by simp)⟩

/-- C3 fails as stated: the completion guard accepts any stored `Chat`
when the selection was a `User`. At the concrete input below the current
view is a chat whose members do not include the selected user — so it is
neither the selected object nor the direct chat resolved for the selected
user (a superseded request's view) — yet the guard passes and
`navigationComplete` is emitted. -/
theorem c3_navigation_complete_guard_counterexample :
    navigationCompleteCheck (some (.chat ⟨"cB", ["u2", "u3"], "pB"⟩))
      (.user ⟨"u1", "alice"⟩) = true ∧
    "u1" ∉ (["u2", "u3"] : List String) := by
  constructor
  · rfl
  · simp

/-- C3 amended: `navigationComplete` fires exactly when the current view
object is (structurally, modelling reference identity) the selected
channel, or when the current view is any `Chat` while the selection was a
`User` — the latter disjunct does not check that the chat belongs to the
selected user, so a superseded request can still fire completion. -/
theorem c3_navigation_complete_guard (v : Option ViewObject) (o : NavTarget) :
    navigationCompleteCheck v o = true ↔
      ((∃ c, o = .channel c ∧ v = some (.channel c)) ∨
       ((∃ chat, v = some (.chat chat)) ∧ ∃ u, o = .user u)) := by
  rcases v with _ | vo
  · cases o <;> simp [navigationCompleteCheck]
  · cases vo <;> cases o <;> simp [navigationCompleteCheck]

/-- C2 fails in its cancellation parts. First: the subscription is not
cancelled when the notification surfaces the created chat — only a
delayed unsubscribe is scheduled — so immediately afterwards the
subscription is still active, and a second notification before the timer
fires re-runs the handler and changes the state again (here the store
now holds a chat record with the same id but a different path). Second:
when no notification ever surfaces a chat with the watched id (the
resolution is abandoned), no unsubscribe is ever scheduled and the
subscription is still running after the notifications — a dangling
subscription is left. -/
theorem c2_delayed_unsubscribe_counterexample :
    (runWatch ⟨⟨none, none, none, none⟩, true, "c1", 0⟩
        [.notify [⟨"c1", ["u1", "u2"], "p1"⟩]]).subActive = true ∧
    runWatch ⟨⟨none, none, none, none⟩, true, "c1", 0⟩
        [.notify [⟨"c1", ["u1", "u2"], "p1"⟩], .notify [⟨"c1", ["u1", "u2"], "p2"⟩]] ≠
      runWatch ⟨⟨none, none, none, none⟩, true, "c1", 0⟩
        [.notify [⟨"c1", ["u1", "u2"], "p1"⟩]] ∧
    (runWatch ⟨⟨none, none, none, none⟩, true, "c1", 0⟩
        [.notify [⟨"cX", ["u3"], "pX"⟩], .notify []]).subActive = true := by
  refine ⟨rfl, by decide, rfl⟩

/-- C2 amended: when no chat is found, exactly one creation call is
issued and a watch on the returned id is installed; a notification that
surfaces a chat with that id makes it the current view and schedules a
delayed (100ms) unsubscribe, leaving the subscription active until the
timer fires; a notification that surfaces no matching chat changes
nothing (the subscription in particular stays active); once the timer
has fired the subscription is inactive and every later notification is a
no-op — but if no notification ever surfaces a matching chat, no
unsubscribe is ever scheduled and any sequence of such notifications and
(vacuous) timer events leaves the watch world unchanged, the
subscription still running. -/
theorem c2_chat_creation_watch (s : NavState) (w : ChatWatchWorld)
    (chats : List Chat) (chat : Chat) (cid : String) :
    ((setChatViewObjectAsChat s none (some cid)).createCalls = 1 ∧
     (setChatViewObjectAsChat s none (some cid)).watchedChatID = some cid) ∧
    (w.subActive = true → chats.find? (fun c => c.id == w.chatID) = some chat →
      (onChatListChange w chats).state.chatViewObject = some (.chat chat) ∧
      (onChatListChange w chats).state.chatViewPath = some chat.chatMessagesPath ∧
      (onChatListChange w chats).subActive = true ∧
      (onChatListChange w chats).pendingUnsubTimers = w.pendingUnsubTimers + 1) ∧
    (w.subActive = true → chats.find? (fun c => c.id == w.chatID) = none →
      onChatListChange w chats = w) ∧
    (w.pendingUnsubTimers > 0 → (fireUnsubTimer w).subActive = false) ∧
    (w.subActive = false → onChatListChange w chats = w) ∧
    (∀ events : List WatchEvent, w.pendingUnsubTimers = 0 →
      (∀ cs, WatchEvent.notify cs ∈ events →
        cs.find? (fun c => c.id == w.chatID) = none) →
      runWatch w events = w) := by
  refine ⟨⟨rfl, rfl⟩, ?_, ?_, ?_, ?_, ?_⟩
  · intro hact hfind
    simp [onChatListChange, hact, hfind]
  · intro hact hfind
    simp [onChatListChange, hact, hfind]
  · intro hpend
    simp [fireUnsubTimer, hpend]
  · intro hinact
    simp [onChatListChange, hinact]
  · intro events hpend
    induction events with
    | nil => intro _; rfl
    | cons e rest ih =>
      intro hnone
      have hrest : ∀ cs, WatchEvent.notify cs ∈ rest →
          cs.find? (fun c => c.id == w.chatID) = none :=
        fun cs hcs => hnone cs (List.mem_cons_of_mem e hcs)
      cases e with
      | notify cs =>
        have hn := hnone cs (List.mem_cons_self _ _)
        have hstep : onChatListChange w cs = w := by
          by_cases hact : w.subActive
          · simp [onChatListChange, hact, hn]
          · simp [onChatListChange, hact]
        have hrw : runWatch w (WatchEvent.notify cs :: rest) =
            runWatch (onChatListChange w cs) rest := rfl
        rw [hrw, hstep]
        exact ih hrest
      | timerFires =>
        have hstep : fireUnsubTimer w = w := by
          simp [fireUnsubTimer, hpend]
        have hrw : runWatch w (WatchEvent.timerFires :: rest) =
            runWatch (fireUnsubTimer w) rest := rfl
        rw [hrw, hstep]
        exact ih hrest

/-- Witness for C2 (amended) at a concrete watch world: an active watch
on id c1 with a notification carrying the matching chat, an active watch
with a non-matching notification, a fired timer, an inactive watch, and
a two-notification trace that never surfaces the watched chat and leaves
the subscription running. -/
theorem c2_chat_creation_watch_witness :
    (onChatListChange ⟨⟨none, none, none, none⟩, true, "c1", 0⟩
        [⟨"c1", ["u1", "u2"], "p1"⟩]).state.chatViewObject =
      some (.chat ⟨"c1", ["u1", "u2"], "p1"⟩) ∧
    onChatListChange ⟨⟨none, none, none, none⟩, true, "c1", 0⟩
        [⟨"cX", ["u3"], "pX"⟩] =
      ⟨⟨none, none, none, none⟩, true, "c1", 0⟩ ∧
    (fireUnsubTimer ⟨⟨none, none, none, none⟩, true, "c1", 1⟩).subActive = false ∧
    onChatListChange ⟨⟨none, none, none, none⟩, false, "c1", 1⟩
        [⟨"c1", ["u1", "u2"], "p1"⟩] =
      ⟨⟨none, none, none, none⟩, false, "c1", 1⟩ ∧
    runWatch ⟨⟨none, none, none, none⟩, true, "c1", 0⟩
        [.notify [⟨"cX", ["u3"], "pX"⟩], .notify []] =
      ⟨⟨none, none, none, none⟩, true, "c1", 0⟩ :=
  ⟨((c2_chat_creation_watch ⟨none, none, none, none⟩
      ⟨⟨none, none, none, none⟩, true, "c1", 0⟩
      [⟨"c1", ["u1", "u2"], "p1"⟩] ⟨"c1", ["u1", "u2"], "p1"⟩ "c1").2.1 rfl rfl).1,
   (c2_chat_creation_watch ⟨none, none, none, none⟩
      ⟨⟨none, none, none, none⟩, true, "c1", 0⟩
      [⟨"cX", ["u3"], "pX"⟩] ⟨"c1", ["u1", "u2"], "p1"⟩ "c1").2.2.1 rfl rfl,
   (c2_chat_creation_watch ⟨none, none, none, none⟩
      ⟨⟨none, none, none, none⟩, true, "c1", 1⟩
      [⟨"c1", ["u1", "u2"], "p1"⟩] ⟨"c1", ["u1", "u2"], "p1"⟩ "c1").2.2.2.1 (by decide),
   (c2_chat_creation_watch ⟨none, none, none, none⟩
      ⟨⟨none, none, none, none⟩, false, "c1", 1⟩
      [⟨"c1", ["u1", "u2"], "p1"⟩] ⟨"c1", ["u1", "u2"], "p1"⟩ "c1").2.2.2.2.1 rfl,
   (c2_chat_creation_watch ⟨none, none, none, none⟩
      ⟨⟨none, none, none, none⟩, true, "c1", 0⟩
      [] ⟨"c1", ["u1", "u2"], "p1"⟩ "c1").2.2.2.2.2
      [.notify [⟨"cX", ["u3"], "pX"⟩], .notify []] rfl
      (by
        intro cs hcs
        simp only [List.mem_cons, List.not_mem_nil, or_false] at hcs
        rcases hcs with hcs | hcs <;>
          · injection hcs with h
            subst h
            rfl)⟩

/-- C5 fails as stated on two truthiness edge cases. First instance: the
chat partner u2 exists and the directory lookup succeeds, but the looked
up name is the empty string, which is falsy, so the code answers the
empty string instead of the claimed partner form. Second instance: the
member id differing from the current user is itself the empty string —
falsy — so no lookup happens at all even though the directory could
resolve it, and the code again answers the empty string. -/
theorem c5_search_context_counterexample :
    (UsersServiceModel.mk (some ⟨"u1", "alice"⟩)
        (fun s => if s = "u2" then some ⟨"u2", ""⟩ else none)).getUserByID "u2" =
      some ⟨"u2", ""⟩ ∧
    getSearchContext
      (UsersServiceModel.mk (some ⟨"u1", "alice"⟩)
        (fun s => if s = "u2" then some ⟨"u2", ""⟩ else none))
      (.chat ⟨"cA", ["u1", "u2"], "pA"⟩) = "" ∧
    (UsersServiceModel.mk (some ⟨"u1", "alice"⟩)
        (fun s => if s = "" then some ⟨"", "bob"⟩ else none)).getUserByID "" =
      some ⟨"", "bob"⟩ ∧
    getSearchContext
      (UsersServiceModel.mk (some ⟨"u1", "alice"⟩)
        (fun s => if s = "" then some ⟨"", "bob"⟩ else none))
      (.chat ⟨"cB", ["u1", ""], "pB"⟩) = "" ∧
    ("" : String) ≠ "in:@" ∧ ("" : String) ≠ "in:@bob" := by
  refine ⟨rfl, rfl, rfl, rfl, by simp, by simp⟩

/-- C5 amended: with a current user present, `getSearchContext` yields
exactly `in:#` plus the channel name for a channel view; for a direct
chat it yields `in:@` plus the partner name when the first member id
differing from the current user's id is non-empty and its directory
lookup yields a user with a non-empty name, `in:@` plus the current
user's name when every member id equals the current user's id
(self-chat), and the empty string when a differing member id exists but
is empty, or its lookup fails, or the looked-up name is empty. -/
theorem c5_search_context (svc : UsersServiceModel) (u : User) (c : Chat) (ch : Channel)
    (hcu : svc.currentUser = some u) :
    (getSearchContext svc (.channel ch) = "in:#" ++ ch.name) ∧
    (∀ pid w, c.memberIDs.find? (partnerFilter (some u)) = some pid → pid ≠ "" →
      svc.getUserByID pid = some w → w.name ≠ "" →
      getSearchContext svc (.chat c) = "in:@" ++ w.name) ∧
    (c.memberIDs.all (fun m => m == u.id) = true →
      getSearchContext svc (.chat c) = "in:@" ++ u.name) ∧
    (∀ pid, c.memberIDs.find? (partnerFilter (some u)) = some pid →
      truthyStr (if pid = "" then none
        else (svc.getUserByID pid).map (fun w => w.name)) = false →
      getSearchContext svc (.chat c) = "") := by
  refine ⟨rfl, ?_, ?_, ?_⟩
  · intro pid w hfind hpid hlook hname
    simp [getSearchContext, getChatPartnerName, hcu, hfind, hpid, hlook, truthyStr, hname]
  · intro hall
    have hfind : c.memberIDs.find? (partnerFilter (some u)) = none := by
      rw [List.find?_eq_none]
      intro x hx
      have := List.all_eq_true.mp hall x hx
      simp only [beq_iff_eq] at this
      simp [partnerFilter, this]
    simp [getSearchContext, getChatPartnerName, isSelfChat, hcu, hfind, truthyStr,
      interpName, hall]
  · intro pid hfind htruthy
    have hmem : pid ∈ c.memberIDs := List.mem_of_find?_eq_some hfind
    have hne : pid ≠ u.id := by
      have := List.find?_some hfind
      simpa [partnerFilter] using this
    have hself : isSelfChat svc (.chat c) = false := by
      simp only [isSelfChat, hcu]
      cases hall : c.memberIDs.all (fun memberId => memberId == u.id) with
      | false => rfl
      | true =>
        exact absurd (by simpa using List.all_eq_true.mp hall pid hmem) hne
    simp [getSearchContext, getChatPartnerName, hcu, hfind, htruthy, hself]

/-- Witness for C5 (amended) at the concrete inputs of the spec's
examples: members u1, u2, current user u1, directory naming u2 bob; and
the self-chat with both members u1 and current user alice. -/
theorem c5_search_context_witness :
    getSearchContext
      (UsersServiceModel.mk (some ⟨"u1", "alice"⟩)
        (fun s => if s = "u2" then some ⟨"u2", "bob"⟩ else none))
      (.chat ⟨"cW", ["u1", "u2"], "pW"⟩) = "in:@" ++ "bob" ∧
    getSearchContext
      (UsersServiceModel.mk (some ⟨"u1", "alice"⟩)
        (fun s => if s = "u2" then some ⟨"u2", "bob"⟩ else none))
      (.chat ⟨"cS", ["u1", "u1"], "pS"⟩) = "in:@" ++ "alice" :=
  ⟨(c5_search_context
      (UsersServiceModel.mk (some ⟨"u1", "alice"⟩)
        (fun s => if s = "u2" then some ⟨"u2", "bob"⟩ else none))
      ⟨"u1", "alice"⟩ ⟨"cW", ["u1", "u2"], "pW"⟩ ⟨"ch", "general", "gp", []⟩
      rfl).2.1 "u2" ⟨"u2", "bob"⟩ rfl (by simp) rfl (by simp),
   (c5_search_context
      (UsersServiceModel.mk (some ⟨"u1", "alice"⟩)
        (fun s => if s = "u2" then some ⟨"u2", "bob"⟩ else none))
      ⟨"u1", "alice"⟩ ⟨"cS", ["u1", "u1"], "pS"⟩ ⟨"ch", "general", "gp", []⟩
      rfl).2.2.1 rfl⟩

/-- C10 fails in its partner-form part on a truthiness edge case: with no
current user, every member passes the partner filter, so the first member
is found — but here the first member id is the empty string, which is
falsy, so the code skips the directory lookup (which would have
succeeded with the non-empty name bob) and answers the empty string
where the claim demands the partner form. -/
theorem c10_no_current_user_counterexample :
    (UsersServiceModel.mk none
        (fun s => if s = "" then some ⟨"", "bob"⟩ else none)).getUserByID "" =
      some ⟨"", "bob"⟩ ∧
    (Chat.mk "cC" ["", ""] "pC").memberIDs.head? = some "" ∧
    getSearchContext
      (UsersServiceModel.mk none
        (fun s => if s = "" then some ⟨"", "bob"⟩ else none))
      (.chat ⟨"cC", ["", ""], "pC"⟩) = "" ∧
    ("" : String) ≠ "in:@bob" := by
  refine ⟨rfl, rfl, rfl, by simp⟩

/-- C10 amended: with no current user, `isSelfChat` is false (even when
every member is the same user), the partner filter accepts every member
so the first member is the candidate partner, and the result is `in:@`
plus that member's looked-up name when the member id is non-empty and
the lookup yields a user with a non-empty name; otherwise (empty first
member id, failed lookup, empty looked-up name, or no members at all)
the result is the empty string. -/
theorem c10_no_current_user (svc : UsersServiceModel) (c : Chat)
    (hcu : svc.currentUser = none) :
    isSelfChat svc (.chat c) = false ∧
    c.memberIDs.find? (partnerFilter none) = c.memberIDs.head? ∧
    (∀ pid w, c.memberIDs.head? = some pid → pid ≠ "" →
      svc.getUserByID pid = some w → w.name ≠ "" →
      getSearchContext svc (.chat c) = "in:@" ++ w.name) ∧
    (∀ pid, c.memberIDs.head? = some pid →
      truthyStr (if pid = "" then none
        else (svc.getUserByID pid).map (fun w => w.name)) = false →
      getSearchContext svc (.chat c) = "") ∧
    (c.memberIDs = [] → getSearchContext svc (.chat c) = "") := by
  have hfh : c.memberIDs.find? (partnerFilter none) = c.memberIDs.head? := by
    cases c.memberIDs with
    | nil => rfl
    | cons x xs => simp [List.find?, partnerFilter]
  have hself : isSelfChat svc (.chat c) = false := by
    simp [isSelfChat, hcu]
  refine ⟨hself, hfh, ?_, ?_, ?_⟩
  · intro pid w hhead hpid hlook hname
    have hfind : c.memberIDs.find? (partnerFilter svc.currentUser) = some pid := by
      rw [hcu, hfh, hhead]
    simp [getSearchContext, getChatPartnerName, hfind, hpid, hlook, truthyStr, hname]
  · intro pid hhead htruthy
    have hfind : c.memberIDs.find? (partnerFilter svc.currentUser) = some pid := by
      rw [hcu, hfh, hhead]
    simp [getSearchContext, getChatPartnerName, hfind, htruthy, hself]
  · intro hnil
    simp [getSearchContext, getChatPartnerName, isSelfChat, hcu, hnil, truthyStr]

/-- Witness for C10 (amended) at a concrete chat whose two members are
both u2 with no current user: self-chat detection stays false and the
result takes the partner form for u2. -/
theorem c10_no_current_user_witness :
    isSelfChat
      (UsersServiceModel.mk none
        (fun s => if s = "u2" then some ⟨"u2", "bob"⟩ else none))
      (.chat ⟨"cX", ["u2", "u2"], "pX"⟩) = false ∧
    getSearchContext
      (UsersServiceModel.mk none
        (fun s => if s = "u2" then some ⟨"u2", "bob"⟩ else none))
      (.chat ⟨"cX", ["u2", "u2"], "pX"⟩) = "in:@" ++ "bob" :=
  ⟨(c10_no_current_user
      (UsersServiceModel.mk none
        (fun s => if s = "u2" then some ⟨"u2", "bob"⟩ else none))
      ⟨"cX", ["u2", "u2"], "pX"⟩ rfl).1,
   (c10_no_current_user
      (UsersServiceModel.mk none
        (fun s => if s = "u2" then some ⟨"u2", "bob"⟩ else none))
      ⟨"cX", ["u2", "u2"], "pX"⟩ rfl).2.2.1 "u2" ⟨"u2", "bob"⟩ rfl (by simp) rfl
      (by simp)⟩

/-- C9: setting the `messagesPath` input cancels the prior feed
subscription (the state after the setter never holds the previous
handle), resets the held message list to empty, keeps well-formed
subscription bookkeeping, and the first snapshot of the new path is
therefore processed against the empty list. -/
theorem c9_path_switch_reset (st : MessagesListViewState) (v : Option String)
    (mp : String) (changes : List DocChange) (hwf : SubHandleWF st) :
    (setMessagesPathInput st v).messages = [] ∧
    (∀ tok, st.unsubMessages = some tok →
      (setMessagesPathInput st v).unsubMessages ≠ some tok) ∧
    SubHandleWF (setMessagesPathInput st v) ∧
    (deliverSnapshot (setMessagesPathInput st v) mp changes).messages =
      processSnapshot mp [] changes := by
  have hm : (setMessagesPathInput st v).messages = [] := by
    rcases v with _ | p
    · rfl
    · by_cases hp : p = "" <;> simp [setMessagesPathInput, subscribeMessages, hp]
  refine ⟨hm, ?_, ?_, ?_⟩
  · rintro ⟨k, p⟩ htok
    have hk := hwf k p htok
    rcases v with _ | q
    · simp [setMessagesPathInput, subscribeMessages]
    · by_cases hq : q = ""
      · simp [setMessagesPathInput, subscribeMessages, hq]
      · have hup : (setMessagesPathInput st (some q)).unsubMessages =
            some (st.subSerial, q) := by
          simp [setMessagesPathInput, subscribeMessages, hq]
        rw [hup]
        intro hcontra
        injection hcontra with hpair
        injection hpair with h1 h2
        omega
  · rintro k p htok
    rcases v with _ | q
    · simp [setMessagesPathInput, subscribeMessages] at htok
    · by_cases hq : q = ""
      · simp [setMessagesPathInput, subscribeMessages, hq] at htok
      · have hup : (setMessagesPathInput st (some q)).unsubMessages =
            some (st.subSerial, q) := by
          simp [setMessagesPathInput, subscribeMessages, hq]
        have hser : (setMessagesPathInput st (some q)).subSerial = st.subSerial + 1 := by
          simp [setMessagesPathInput, subscribeMessages, hq]
        rw [hup] at htok
        rw [hser]
        injection htok with hpair
        injection hpair with h1 h2
        omega
  · simp [deliverSnapshot, hm]

/-- Witness for C9 at a concrete state holding a live subscription on the
old path, switched to a new path. -/
theorem c9_path_switch_reset_witness :
    (setMessagesPathInput
        ⟨[⟨"m1", "u1", 5, false, "", "hi", "old/messages"⟩], [5],
          some (0, "old/messages"), 1, true⟩
        (some "new/messages")).messages = [] ∧
    (setMessagesPathInput
        ⟨[⟨"m1", "u1", 5, false, "", "hi", "old/messages"⟩], [5],
          some (0, "old/messages"), 1, true⟩
        (some "new/messages")).unsubMessages ≠ some (0, "old/messages") :=
  ⟨(c9_path_switch_reset
      ⟨[⟨"m1", "u1", 5, false, "", "hi", "old/messages"⟩], [5],
        some (0, "old/messages"), 1, true⟩
      (some "new/messages") "new/messages" []
      (by simp [SubHandleWF])).1,
   (c9_path_switch_reset
      ⟨[⟨"m1", "u1", 5, false, "", "hi", "old/messages"⟩], [5],
        some (0, "old/messages"), 1, true⟩
      (some "new/messages") "new/messages" []
      (by simp [SubHandleWF])).2.1 (0, "old/messages") rfl⟩

/-- Replacing the first id-match keeps the list length. -/
lemma updateFirst_length (l : List Message) (docId : String) (d : MessageData) :
    (updateFirst l docId d).length = l.length := by
  induction l with
  | nil => rfl
  | cons m rest ih => by_cases h : m.id = docId <;> simp [updateFirst, h, ih]

/-- Replacing the first id-match keeps the sequence of ids. -/
lemma updateFirst_map_id (l : List Message) (docId : String) (d : MessageData) :
    (updateFirst l docId d).map (fun m => m.id) = l.map (fun m => m.id) := by
  induction l with
  | nil => rfl
  | cons m rest ih =>
    by_cases h : m.id = docId <;> simp [updateFirst, h, ih, Message.update]

/-- When no held message carries the id, `updateFirst` is the
identity. -/
lemma updateFirst_eq_of_forall_ne (l : List Message) (docId : String) (d : MessageData)
    (h : ∀ m ∈ l, m.id ≠ docId) : updateFirst l docId d = l := by
  induction l with
  | nil => rfl
  | cons m rest ih =>
    simp only [updateFirst]
    rw [if_neg (h m (List.mem_cons_self m rest))]
    rw [ih (fun x hx => h x (List.mem_cons_of_mem m hx))]

/-- On a list decomposed around its first id-match, `updateFirst`
replaces exactly that entry, in place. -/
lemma updateFirst_decomp (l1 : List Message) (m : Message) (l2 : List Message)
    (docId : String) (d : MessageData) (hm : m.id = docId)
    (hl1 : ∀ x ∈ l1, x.id ≠ docId) :
    updateFirst (l1 ++ m :: l2) docId d = l1 ++ m.update d :: l2 := by
  induction l1 with
  | nil => simp [updateFirst, hm]
  | cons a t ih =>
    simp only [List.cons_append, updateFirst, List.append_eq]
    rw [if_neg (hl1 a (List.mem_cons_self a t))]
    rw [ih (fun x hx => hl1 x (List.mem_cons_of_mem a hx))]

/-- C4: a `modified` delta preserves list length and the id sequence (no
entry duplicated or dropped); when a message with the delta's id is held,
the first such entry has its payload updated in place (identity, id and
position unchanged); when no such message is held the delta is a no-op;
and a `modified` immediately following a `removed` of the same id within
a batch is a no-op (the message is not resurrected). -/
theorem c4_modified_delta (l : List Message) (docId : String) (d : MessageData) :
    ((updateFirst l docId d).length = l.length) ∧
    ((updateFirst l docId d).map (fun m => m.id) = l.map (fun m => m.id)) ∧
    (∀ l1 m l2, l = l1 ++ m :: l2 → m.id = docId → (∀ x ∈ l1, x.id ≠ docId) →
      updateFirst l docId d = l1 ++ m.update d :: l2) ∧
    ((∀ m ∈ l, m.id ≠ docId) → updateFirst l docId d = l) ∧
    (∀ (mp : String) (acc : List Message × Bool),
      applyDocChange mp (applyDocChange mp acc (.removed docId)) (.modified docId d) =
        applyDocChange mp acc (.removed docId)) := by
  refine ⟨updateFirst_length l docId d, updateFirst_map_id l docId d, ?_, ?_, ?_⟩
  · intro l1 m l2 hdecomp hm hl1
    rw [hdecomp]
    exact updateFirst_decomp l1 m l2 docId d hm hl1
  · exact updateFirst_eq_of_forall_ne l docId d
  · intro mp acc
    have hclean :
        updateFirst (acc.1.filter (fun m => m.id ≠ docId)) docId d =
          acc.1.filter (fun m => m.id ≠ docId) :=
      updateFirst_eq_of_forall_ne _ _ _
        (fun m hm => by simpa using (List.mem_filter.mp hm).2)
    simp only [decide_not] at hclean
    simp [applyDocChange, hclean]

/-- Witness for C4 at a concrete two-element list: the delta targets the
second entry, replaces exactly its payload in place, and after a
`removed` of the same id the `modified` is a no-op. -/
theorem c4_modified_delta_witness :
    updateFirst
        [⟨"m1", "u1", 5, false, "", "hi", "p"⟩, ⟨"m2", "u2", 6, false, "", "ho", "p"⟩]
        "m2" ⟨"u2", 9, true, "ap", "edited"⟩ =
      [⟨"m1", "u1", 5, false, "", "hi", "p"⟩,
       Message.update ⟨"m2", "u2", 6, false, "", "ho", "p"⟩ ⟨"u2", 9, true, "ap", "edited"⟩] ∧
    applyDocChange "p"
        (applyDocChange "p"
          ([⟨"m2", "u2", 6, false, "", "ho", "p"⟩], false) (.removed "m2"))
        (.modified "m2" ⟨"u2", 9, true, "ap", "edited"⟩) =
      applyDocChange "p"
        ([⟨"m2", "u2", 6, false, "", "ho", "p"⟩], false) (.removed "m2") :=
  ⟨(c4_modified_delta
      [⟨"m1", "u1", 5, false, "", "hi", "p"⟩, ⟨"m2", "u2", 6, false, "", "ho", "p"⟩]
      "m2" ⟨"u2", 9, true, "ap", "edited"⟩).2.2.1
      [⟨"m1", "u1", 5, false, "", "hi", "p"⟩] ⟨"m2", "u2", 6, false, "", "ho", "p"⟩ []
      rfl rfl (by simp),
   (c4_modified_delta
      [⟨"m1", "u1", 5, false, "", "hi", "p"⟩, ⟨"m2", "u2", 6, false, "", "ho", "p"⟩]
      "m2" ⟨"u2", 9, true, "ap", "edited"⟩).2.2.2.2 "p"
      ([⟨"m2", "u2", 6, false, "", "ho", "p"⟩], false)⟩

/-- The sort comparator is transitive. -/
lemma msgLE_trans : ∀ (a b c : Message), msgLE a b → msgLE b c → msgLE a c := by
  intro a b c hab hbc
  simp only [msgLE, decide_eq_true_eq] at *
  omega

/-- The sort comparator is total. -/
lemma msgLE_total : ∀ (a b : Message), msgLE a b || msgLE b a := by
  intro a b
  simp only [msgLE, Bool.or_eq_true, decide_eq_true_eq]
  omega

/-- Every entry of the list after `updateFirst` shares its `createdAt`
with some entry of the original list. -/
lemma updateFirst_mem_createdAt {l : List Message} {docId : String} {d : MessageData}
    {x : Message} (hx : x ∈ updateFirst l docId d) :
    ∃ y ∈ l, x.createdAt = y.createdAt := by
  induction l with
  | nil => simp [updateFirst] at hx
  | cons m rest ih =>
    by_cases h : m.id = docId
    · rw [updateFirst, if_pos h] at hx
      rcases List.mem_cons.mp hx with rfl | hx2
      · exact ⟨m, List.mem_cons_self m rest, rfl⟩
      · exact ⟨x, List.mem_cons_of_mem m hx2, rfl⟩
    · rw [updateFirst, if_neg h] at hx
      rcases List.mem_cons.mp hx with rfl | hx2
      · exact ⟨x, List.mem_cons_self x rest, rfl⟩
      · rcases ih hx2 with ⟨y, hy, he⟩
        exact ⟨y, List.mem_cons_of_mem m hy, he⟩

/-- A `modified` delta cannot break chronological sortedness, since the
payload update preserves `createdAt`. -/
lemma updateFirst_pairwise {l : List Message} {docId : String} {d : MessageData}
    (h : l.Pairwise (fun a b => msgLE a b = true)) :
    (updateFirst l docId d).Pairwise (fun a b => msgLE a b = true) := by
  induction l with
  | nil => exact h
  | cons m rest ih =>
    rcases List.pairwise_cons.mp h with ⟨hm, hrest⟩
    by_cases hid : m.id = docId
    · rw [updateFirst, if_pos hid]
      refine List.pairwise_cons.mpr ⟨?_, hrest⟩
      intro y hy
      have hle := hm y hy
      simp only [msgLE, decide_eq_true_eq, Message.update] at *
      exact hle
    · rw [updateFirst, if_neg hid]
      refine List.pairwise_cons.mpr ⟨?_, ih hrest⟩
      intro y hy
      rcases updateFirst_mem_createdAt hy with ⟨z, hz, he⟩
      have hle := hm z hz
      simp only [msgLE, decide_eq_true_eq] at *
      omega

/-- The `sortNeeded` flag after a batch is the old flag joined with
whether the batch contained an `added` delta. -/
lemma foldl_applyDocChange_snd (mp : String) :
    ∀ (changes : List DocChange) (acc : List Message × Bool),
      (changes.foldl (applyDocChange mp) acc).2 = (acc.2 || changes.any DocChange.isAdded) := by
  intro changes
  induction changes with
  | nil => intro acc; simp
  | cons c rest ih =>
    intro acc
    cases c with
    | added docId d => simp [List.foldl_cons, applyDocChange, ih, DocChange.isAdded]
    | modified docId d => simp [List.foldl_cons, applyDocChange, ih, DocChange.isAdded]
    | removed docId => simp [List.foldl_cons, applyDocChange, ih, DocChange.isAdded]

/-- On a batch of `added` deltas only, the fold appends the constructed
messages, in delivery order, to the held list. -/
lemma foldl_applyDocChange_fst_addOnly (mp : String) :
    ∀ (changes : List DocChange) (acc : List Message × Bool),
      (∀ c ∈ changes, c.isAdded = true) →
      (changes.foldl (applyDocChange mp) acc).1 = acc.1 ++ addedOf mp changes := by
  intro changes
  induction changes with
  | nil => intro acc _; simp [addedOf]
  | cons c rest ih =>
    intro acc h
    cases c with
    | added docId d =>
      rw [List.foldl_cons]
      rw [ih _ (fun x hx => h x (List.mem_cons_of_mem _ hx))]
      simp [applyDocChange, addedOf, List.filterMap_cons]
    | modified docId d =>
      exact absurd (h _ (List.mem_cons_self _ _)) (by simp [DocChange.isAdded])
    | removed docId =>
      exact absurd (h _ (List.mem_cons_self _ _)) (by simp [DocChange.isAdded])

/-- When no `added` delta occurred in a batch, the fold preserves
chronological sortedness (`modified` keeps timestamps, `removed` is a
filter). -/
lemma foldl_applyDocChange_pairwise (mp : String) :
    ∀ (changes : List DocChange) (acc : List Message × Bool),
      (changes.foldl (applyDocChange mp) acc).2 = false →
      acc.1.Pairwise (fun a b => msgLE a b = true) →
      ((changes.foldl (applyDocChange mp) acc).1).Pairwise (fun a b => msgLE a b = true) := by
  intro changes
  induction changes with
  | nil => intro acc _ hp; exact hp
  | cons c rest ih =>
    intro acc hflag hp
    cases c with
    | added docId d =>
      rw [List.foldl_cons] at hflag
      rw [foldl_applyDocChange_snd] at hflag
      simp [applyDocChange] at hflag
    | modified docId d =>
      rw [List.foldl_cons] at *
      exact ih _ hflag (updateFirst_pairwise hp)
    | removed docId =>
      rw [List.foldl_cons] at *
      exact ih _ hflag (List.Pairwise.sublist (List.filter_sublist _) hp)

/-- After any batch the externally visible list is chronologically
sorted, provided the held list was. -/
lemma processSnapshot_pairwise (mp : String) (l : List Message) (changes : List DocChange)
    (h : l.Pairwise (fun a b => msgLE a b = true)) :
    (processSnapshot mp l changes).Pairwise (fun a b => msgLE a b = true) := by
  rw [processSnapshot]
  by_cases hflag : (changes.foldl (applyDocChange mp) (l, false)).2 = true
  · simp only [hflag, if_true]
    exact List.sorted_mergeSort msgLE_trans msgLE_total _
  · simp only [Bool.not_eq_true] at hflag
    simp only [hflag, if_false]
    exact foldl_applyDocChange_pairwise mp changes (l, false) hflag h

/-- Case split for a two-element sublist of an append. -/
lemma pair_sublist_append_cases {a b : Message} {l r : List Message}
    (h : [a, b] <+ l ++ r) :
    [a, b] <+ l ∨ (a ∈ l ∧ b ∈ r) ∨ [a, b] <+ r := by
  rcases List.sublist_append_iff.mp h with ⟨xs, ys, hxy, hx, hy⟩
  cases xs with
  | nil =>
    simp only [List.nil_append] at hxy
    subst hxy
    exact Or.inr (Or.inr hy)
  | cons x t =>
    cases t with
    | nil =>
      simp only [List.cons_append, List.nil_append, List.cons.injEq] at hxy
      obtain ⟨rfl, rfl⟩ := hxy
      exact Or.inr (Or.inl ⟨List.singleton_sublist.mp hx,
        List.singleton_sublist.mp hy⟩)
    | cons y t2 =>
      cases t2 with
      | nil =>
        simp only [List.cons_append, List.nil_append, List.cons.injEq] at hxy
        obtain ⟨rfl, rfl, rfl⟩ := hxy
        exact Or.inl hx
      | cons z t3 =>
        exfalso
        have hlen := congrArg List.length hxy
        simp only [List.length_cons, List.length_append, List.length_nil] at hlen
        omega

/-- Invariant of the add-only reconciliation: the held list stays a
permutation of the arrived messages, and every chronologically ordered
pair of arrivals stays in that relative order (stability via
`pair_sublist_mergeSort`). -/
lemma runBatches_stable (mp : String) :
    ∀ (bs : List (List DocChange)) (s l : List Message),
      (∀ b ∈ bs, ∀ c ∈ b, c.isAdded = true) →
      s.Perm l →
      (∀ a b, msgLE a b = true → [a, b] <+ l → [a, b] <+ s) →
      (bs.foldl (processSnapshot mp) s).Perm
        (bs.foldl (fun acc b => acc ++ addedOf mp b) l) ∧
      (∀ a b, msgLE a b = true →
        [a, b] <+ bs.foldl (fun acc b => acc ++ addedOf mp b) l →
        [a, b] <+ bs.foldl (processSnapshot mp) s) := by
  intro bs
  induction bs with
  | nil => exact fun s l _ hperm hpairs => ⟨hperm, hpairs⟩
  | cons batch rest ih =>
    intro s l hao hperm hpairs
    have haob : ∀ c ∈ batch, c.isAdded = true := hao batch (List.mem_cons_self _ _)
    have haorest : ∀ b ∈ rest, ∀ c ∈ b, c.isAdded = true :=
      fun b hb => hao b (List.mem_cons_of_mem _ hb)
    have hfst := foldl_applyDocChange_fst_addOnly mp batch (s, false) haob
    have hsnd := foldl_applyDocChange_snd mp batch (s, false)
    rw [List.foldl_cons, List.foldl_cons]
    by_cases hany : batch.any DocChange.isAdded = true
    · have hs1 : processSnapshot mp s batch = (s ++ addedOf mp batch).mergeSort msgLE := by
        rw [processSnapshot]
        simp only [hsnd, Bool.false_or, hany, if_true, hfst]
      have hperm1 : (processSnapshot mp s batch).Perm (l ++ addedOf mp batch) := by
        rw [hs1]
        exact (List.mergeSort_perm _ _).trans (hperm.append_right _)
      have hpairs1 : ∀ a b, msgLE a b = true → [a, b] <+ l ++ addedOf mp batch →
          [a, b] <+ processSnapshot mp s batch := by
        intro a b hab hsub
        rw [hs1]
        apply List.pair_sublist_mergeSort msgLE_trans msgLE_total hab
        rcases pair_sublist_append_cases hsub with h2 | ⟨ha, hb⟩ | h2
        · exact (hpairs a b hab h2).trans (List.sublist_append_left _ _)
        · have ha2 : a ∈ s := hperm.mem_iff.mpr ha
          have happ : [a] ++ [b] <+ s ++ addedOf mp batch :=
            List.Sublist.append (List.singleton_sublist.mpr ha2)
              (List.singleton_sublist.mpr hb)
          simpa using happ
        · exact h2.trans (List.sublist_append_right _ _)
      exact ih (processSnapshot mp s batch) (l ++ addedOf mp batch) haorest hperm1 hpairs1
    · have hempty : addedOf mp batch = [] := by
        cases batch with
        | nil => rfl
        | cons c t =>
          exfalso
          apply hany
          simp [List.any_cons, haob c (List.mem_cons_self _ _)]
      have hflag : (batch.foldl (applyDocChange mp) (s, false)).2 = false := by
        rw [hsnd]
        simp only [Bool.false_or]
        simp only [Bool.not_eq_true] at hany
        exact hany
      have hs1 : processSnapshot mp s batch = s := by
        rw [processSnapshot]
        simp [hflag, hfst, hempty]
      rw [hs1, hempty, List.append_nil]
      exact ih s l haorest hperm hpairs

/-- C1: for every sequence of delta batches the externally visible
message list after each batch is sorted non-decreasing by `createdAt`
(the statement quantifies over all batch sequences, so every observable
state is covered and no partially sorted state is visible); and for
add-only batch sequences the list is a permutation of the arrived
messages in which every chronologically ordered arrival pair — in
particular every equal-timestamp pair — keeps its arrival order (the
sort is stable). -/
theorem c1_reconciled_sorted_stable (mp : String) (bs : List (List DocChange)) :
    (processAllSnapshots mp bs).Pairwise (fun a b => a.createdAt ≤ b.createdAt) ∧
    (AddOnly bs →
      (processAllSnapshots mp bs).Perm (addedMessages mp bs) ∧
      ∀ a b, a.createdAt ≤ b.createdAt → [a, b] <+ addedMessages mp bs →
        [a, b] <+ processAllSnapshots mp bs) := by
  constructor
  · have hgen : ∀ (bs2 : List (List DocChange)) (s : List Message),
        s.Pairwise (fun a b => msgLE a b = true) →
        (bs2.foldl (processSnapshot mp) s).Pairwise (fun a b => msgLE a b = true) := by
      intro bs2
      induction bs2 with
      | nil => exact fun s h => h
      | cons b rest ih2 =>
        intro s h
        rw [List.foldl_cons]
        exact ih2 _ (processSnapshot_pairwise mp s b h)
    have h := hgen bs [] List.Pairwise.nil
    rw [processAllSnapshots]
    exact h.imp (fun hab => by simpa [msgLE] using hab)
  · intro hao
    have h := runBatches_stable mp bs [] [] hao (List.Perm.refl _)
      (by intro a b _ hsub; simp at hsub)
    simp only [processAllSnapshots, addedMessages]
    refine ⟨h.1, ?_⟩
    intro a b hab hsub
    exact h.2 a b (by simpa [msgLE] using hab) hsub

/-- Witness for C1 at two single-delta add-only batches carrying the same
timestamp: the reconciled list keeps the arrival order of the
equal-timestamp pair. -/
theorem c1_reconciled_sorted_stable_witness :
    AddOnly [[.added "m1" ⟨"u1", 5, false, "", "a"⟩], [.added "m2" ⟨"u2", 5, false, "", "b"⟩]] ∧
    [Message.ofDoc ⟨"u1", 5, false, "", "a"⟩ "p" "m1",
     Message.ofDoc ⟨"u2", 5, false, "", "b"⟩ "p" "m2"] <+
      processAllSnapshots "p"
        [[.added "m1" ⟨"u1", 5, false, "", "a"⟩], [.added "m2" ⟨"u2", 5, false, "", "b"⟩]] := by
  constructor
  · decide
  · have h := (c1_reconciled_sorted_stable "p"
      [[.added "m1" ⟨"u1", 5, false, "", "a"⟩],
       [.added "m2" ⟨"u2", 5, false, "", "b"⟩]]).2 (by decide)
    refine h.2 _ _ (by decide) ?_
    have he : addedMessages "p"
        [[.added "m1" ⟨"u1", 5, false, "", "a"⟩],
         [.added "m2" ⟨"u2", 5, false, "", "b"⟩]] =
        [Message.ofDoc ⟨"u1", 5, false, "", "a"⟩ "p" "m1",
         Message.ofDoc ⟨"u2", 5, false, "", "b"⟩ "p" "m2"] := rfl
    rw [he]

end DABubble
